import Mathlib

/-!
Verification of the recurring care-task scheduling engine of the `plantit`
repository.

Shallow embedding conventions:
* Python `datetime.date` values are represented by their proleptic Gregorian
  ordinal (`date.toordinal()`) as an `Int`; `date.weekday()` (Monday = 0) is
  `weekday` below.
* Python `datetime` timestamps are abstract instants represented by `Int`;
  every operation that reads the clock takes them as explicit `now` arguments.
* UUIDs are represented by `Nat`; stores allocate fresh ids from a counter.
* SQL sessions become explicit stores (lists of rows plus the id counter);
  the HTTP 404/422 error paths of the repositories become `Option`/`Except`
  results.
* Python floats in the watering predictor are modelled by exact rationals
  (`ℚ`); Python `round` (round half to even) is `pyRound` below.
-/

namespace Plantit

/-! ### Date model

`date.toordinal()` for the proleptic Gregorian calendar: ordinal 1 is
0001-01-01, and `date.weekday()` returns 0 for Monday.  2024-01-01
(ordinal 738886) was a Monday. -/
def isLeapYear (y : Nat) : Bool :=
  (y % 4 == 0 && y % 100 != 0) || y % 400 == 0

def monthLengths (leap : Bool) : List Nat :=
  [31, if leap then 29 else 28, 31, 30, 31, 30, 31, 31, 30, 31, 30, 31]

/-- Embeds `date(y, m, d).toordinal()` as in CPython's `datetime` module. -/
def dateOrdinal (y m d : Nat) : Int :=
  ((365 * (y - 1) + (y - 1) / 4 - (y - 1) / 100 + (y - 1) / 400
      + ((monthLengths (isLeapYear y)).take (m - 1)).sum + d : Nat) : Int)

/-- Embeds `date.weekday()`: Monday is 0, Sunday is 6. -/
def weekday (d : Int) : Int := (d + 6) % 7

/-! ### Care profile data model

From `src/backend/models/care_profile.py`. -/
inductive CareCadenceType where
  | interval
  | weekly
deriving DecidableEq, Repr

/-- Row of the `care_profiles` table (`CareProfile` in
`src/backend/models/care_profile.py`). -/
structure CareProfile where
  id : Nat
  plant_id : Nat
  title : String
  description : Option String
  cadence_type : CareCadenceType
  interval_days : Option Int
  weekly_days : List Int
  start_date : Int
  created_at : Int
  updated_at : Int
deriving DecidableEq, Repr

/-- Embeds `CareProfileBase._normalize_weekly_days`:
`sorted({int(day) % 7 for day in values})`.  Building the set and sorting it
is rendered as deduplication followed by an insertion sort (the result is the
sorted list of the distinct residues, whichever order the set iterates in). -/
def normalizeWeeklyDays (values : List Int) : List Int :=
  ((values.map (fun day => day % 7)).dedup).insertionSort (· ≤ ·)

/-- The payload fields of `CareProfileBase` (pydantic model, before table
columns are added). -/
structure CareProfileBase where
  title : String
  description : Option String
  cadence_type : CareCadenceType
  interval_days : Option Int
  weekly_days : List Int
  start_date : Int
deriving DecidableEq, Repr

/-- The pydantic `Field(ge=1, le=365)` bound on `interval_days`, checked by
`super().model_validate` before the custom validator body runs. -/
def intervalDaysInRange : Option Int → Bool
  | none => true
  | some d => 1 ≤ d && d ≤ 365

/-- Embeds `CareProfileBase.model_validate`: normalize `weekly_days`, then reject an
interval cadence with falsy (`None` or `0`) `interval_days` and a weekly
cadence with empty (normalized) `weekly_days`. -/
def CareProfileBase.model_validate (m : CareProfileBase) : Except String CareProfileBase :=
  if ¬ intervalDaysInRange m.interval_days then
    Except.error "interval_days must be between 1 and 365"
  else
    let m' : CareProfileBase := { m with weekly_days := normalizeWeeklyDays m.weekly_days }
    if m'.cadence_type = CareCadenceType.interval ∧
        (m'.interval_days = none ∨ m'.interval_days = some 0) then
      Except.error "interval_days is required for interval cadence"
    else if m'.cadence_type = CareCadenceType.weekly ∧ m'.weekly_days = [] then
      Except.error "weekly_days is required for weekly cadence"
    else
      Except.ok m'

/-- The states a stored `CareProfile` can be in after passing validation
(`model_validate` above together with
`CareProfileRepository._validate_profile`). -/
def CareProfile.Valid (p : CareProfile) : Prop :=
  (p.cadence_type = CareCadenceType.interval →
      ∃ d : Int, p.interval_days = some d ∧ 1 ≤ d ∧ d ≤ 365) ∧
  (p.cadence_type = CareCadenceType.weekly →
      p.weekly_days ≠ [] ∧ p.weekly_days = normalizeWeeklyDays p.weekly_days)

/-! ### Cadence calculator

`backend/repositories/tasks.py` and `backend/repositories/care_profiles.py`
both import `first_due_on_or_after` and `next_due_after` from
`backend.services.cadence`, but no file under `src/` defines them (the
`services/cadence.py` present belongs to a different variant of the app).
The two functions are therefore modelled from the spec. -/
/-- Modelled from the spec: `first_due_on_or_after(profile, reference)`, which
is missing from `src/` (imported by the repositories from
`backend.services.cadence` but not defined there).  Spec: for interval
cadence, if `reference <= start_date` return `start_date`, else with
`remainder = (reference - start_date) mod interval_days` return `reference`
when the remainder is 0 and `reference + (interval_days - remainder)` days
otherwise; for weekly cadence return `reference + min((day -
reference.weekday()) mod 7 for day in weekly_days)`, a delta of 0 being
valid. -/
def first_due_on_or_after (p : CareProfile) (reference : Int) : Int :=
  match p.cadence_type with
  | CareCadenceType.interval =>
    let d := p.interval_days.getD 1
    if reference ≤ p.start_date then p.start_date
    else
      let elapsed := reference - p.start_date
      let remainder := elapsed % d
      if remainder = 0 then reference else reference + (d - remainder)
  | CareCadenceType.weekly =>
    match p.weekly_days.map (fun day => (day - weekday reference) % 7) with
    | [] => reference
    | x :: xs => reference + xs.foldl min x

/-- Modelled from the spec: `next_due_after(profile, reference)`, which is
missing from `src/` (imported by `backend/repositories/tasks.py` but not
defined under `src/`).  Spec: interval cadence returns
`reference + interval_days`; weekly cadence performs the same weekday search
as `first_due_on_or_after` but forces a delta of exactly 0 to 7. -/
def next_due_after (p : CareProfile) (reference : Int) : Int :=
  match p.cadence_type with
  | CareCadenceType.interval => reference + p.interval_days.getD 1
  | CareCadenceType.weekly =>
    match p.weekly_days.map (fun day =>
        let delta := (day - weekday reference) % 7
        if delta = 0 then 7 else delta) with
    | [] => reference
    | x :: xs => reference + xs.foldl min x

/-- Concrete interval profile used to witness C4: interval cadence, every 3
days, starting 2024-01-01. -/
def sampleIntervalProfile : CareProfile :=
  { id := 1
    plant_id := 1
    title := "Water"
    description := none
    cadence_type := CareCadenceType.interval
    interval_days := some 3
    weekly_days := []
    start_date := dateOrdinal 2024 1 1
    created_at := 0
    updated_at := 0 }

/-! ### Claim C10 -/
/-- Weekly profile payload with out-of-range weekday values, used in C10. -/
def sampleWeeklyBase : CareProfileBase :=
  { title := "Mist"
    description := none
    cadence_type := CareCadenceType.weekly
    interval_days := none
    weekly_days := [7, 14]
    start_date := dateOrdinal 2024 1 1 }

/-! ### Watering history predictor

From `_predict_next_watering_date` in `src/backend/app.py` (lines 515-541).
Python float arithmetic is modelled by exact rationals; `round` (half to
even) is `pyRound`. -/
/-- Embeds `sorted({value for value in history if isinstance(value, date)})`.  In the
typed embedding every entry is a date, so the `isinstance` filter keeps
everything; building the set and sorting it become deduplication followed by
an insertion sort. -/
def distinctSorted (history : List Int) : List Int :=
  history.dedup.insertionSort (· ≤ ·)

/-- Python's `round` on an exact rational: round half to even. -/
def pyRound (q : ℚ) : Int :=
  if q - ⌊q⌋ < 1 / 2 then ⌊q⌋
  else if (1 : ℚ) / 2 < q - ⌊q⌋ then ⌊q⌋ + 1
  else if ⌊q⌋ % 2 = 0 then ⌊q⌋ else ⌊q⌋ + 1

/-- Embeds `_predict_next_watering_date(history)`: deduplicate and sort; fewer than
2 points gives no prediction; a zero variance denominator falls back to
`last + max(1, last_gap)`; otherwise the least-squares line of ordinal over
index is evaluated at index `count`, rounded, and clamped to be at least
`last + 1`. -/
def predict_next_watering_date (history : List Int) : Option Int :=
  let unique_sorted := distinctSorted history
  let count := unique_sorted.length
  if count < 2 then none
  else
    let indices := List.range count
    let ordinals := unique_sorted
    let mean_index : ℚ := (indices.map (fun (i : ℕ) => (i : ℚ))).sum / count
    let mean_ordinal : ℚ := (ordinals.map (fun (o : Int) => (o : ℚ))).sum / count
    let denominator : ℚ := (indices.map (fun (i : ℕ) => ((i : ℚ) - mean_index) ^ 2)).sum
    if denominator = 0 then
      let interval := max 1 (ordinals.getLastD 0 - ordinals.getD (count - 2) 0)
      some (ordinals.getLastD 0 + interval)
    else
      let numerator : ℚ :=
        ((indices.zip ordinals).map
          (fun p => ((p.1 : ℚ) - mean_index) * ((p.2 : ℚ) - mean_ordinal))).sum
      let slope := numerator / denominator
      let intercept := mean_ordinal - slope * mean_index
      let predicted := slope * count + intercept
      let rounded := pyRound predicted
      let minimum_next := ordinals.getLastD 0 + 1
      some (max minimum_next rounded)

/-! Spec-side formulation of the regression, following the wording of the
claim: means over index `0..n` and ordinal, `slope = Σ(i−ī)(o−ō) / Σ(i−ī)²`,
`intercept = ō − slope·ī`, prediction evaluated at index `n`.  These are
compared with `predict_next_watering_date` in C5. -/
def specMeanIndex (history : List Int) : ℚ :=
  ((List.range (distinctSorted history).length).map (fun (i : ℕ) => (i : ℚ))).sum /
    (distinctSorted history).length

def specMeanOrdinal (history : List Int) : ℚ :=
  ((distinctSorted history).map (fun (o : Int) => (o : ℚ))).sum /
    (distinctSorted history).length

def specSlope (history : List Int) : ℚ :=
  (((List.range (distinctSorted history).length).zip (distinctSorted history)).map
      (fun p => ((p.1 : ℚ) - specMeanIndex history) * ((p.2 : ℚ) - specMeanOrdinal history))).sum /
    ((List.range (distinctSorted history).length).map
      (fun (i : ℕ) => ((i : ℚ) - specMeanIndex history) ^ 2)).sum

def specIntercept (history : List Int) : ℚ :=
  specMeanOrdinal history - specSlope history * specMeanIndex history

/-- The regression prediction as the spec words it: `slope · n + intercept`,
rounded to an integer. -/
def specRegressionPrediction (history : List Int) : Int :=
  pyRound (specSlope history * ((distinctSorted history).length : ℚ) +
    specIntercept history)

/-! ### Task data model and store

From `src/backend/models/task.py` and the repositories in
`src/backend/repositories/`.  The SQL session becomes an explicit `Store`;
`uuid4()` becomes allocation from the store's `nextId` counter. -/
/-- Embeds `TaskStatus` from `src/backend/models/task.py` (lines 16-19): the model
has exactly the two members `PENDING` and `COMPLETED`. -/
inductive TaskStatus where
  | pending
  | completed
deriving DecidableEq, Repr

/-- Row of the `tasks` table (`Task` in `src/backend/models/task.py`). -/
structure Task where
  id : Nat
  plant_id : Nat
  care_profile_id : Option Nat
  title : String
  notes : Option String
  due_date : Int
  status : TaskStatus
  completed_at : Option Int
  created_at : Int
  updated_at : Int
deriving DecidableEq, Repr

/-- The persistent state visible to the repositories: plants (only their
ids matter here), care profiles, tasks, and the fresh-id counter standing in
for `uuid4()`. -/
structure Store where
  plants : List Nat
  profiles : List CareProfile
  tasks : List Task
  nextId : Nat
deriving DecidableEq, Repr

/-- Embeds `TaskCreate` payload. -/
structure TaskCreatePayload where
  title : String
  notes : Option String
  due_date : Int
  plant_id : Nat
  care_profile_id : Option Nat
deriving DecidableEq, Repr

/-- Embeds `TaskUpdate` payload; `none` stands for a field that is unset or set to
JSON null — `TaskRepository.update` skips both in the same way (`value is
not None` guard over `exclude_unset` data). -/
structure TaskUpdatePayload where
  title : Option String
  notes : Option String
  due_date : Option Int
  status : Option TaskStatus
deriving DecidableEq, Repr

def findProfile (s : Store) (pid : Nat) : Option CareProfile :=
  s.profiles.find? (fun q => q.id == pid)

/-- A freshly constructed `Task` row: status defaults to `PENDING`,
`completed_at` to `NULL`, and the timestamps to `now`. -/
def newTaskRow (s : Store) (title : String) (notes : Option String) (due : Int)
    (plantId : Nat) (cpId : Option Nat) (now : Int) : Task :=
  { id := s.nextId
    plant_id := plantId
    care_profile_id := cpId
    title := title
    notes := notes
    due_date := due
    status := TaskStatus.pending
    completed_at := none
    created_at := now
    updated_at := now }

/-- Embeds `session.add` of a new row plus the fresh-id bump. -/
def addTask (s : Store) (t : Task) : Store :=
  { s with tasks := s.tasks ++ [t], nextId := s.nextId + 1 }

/-- The pending tasks of one care profile, as selected by
`ensure_initial_task` / `regenerate_pending_tasks`. -/
def pendingTasksFor (s : Store) (pid : Nat) : List Task :=
  s.tasks.filter (fun t => t.care_profile_id == some pid && t.status == TaskStatus.pending)

namespace TaskRepository

/-- Embeds `TaskRepository.create`: 404 when the plant (or a referenced profile) is
missing, otherwise insert a new `PENDING` task; when a profile is linked and
the payload title is falsy the profile's title is used. -/
def create (s : Store) (p : TaskCreatePayload) (now : Int) : Option Store :=
  if p.plant_id ∈ s.plants then
    match p.care_profile_id with
    | none =>
      some (addTask s (newTaskRow s p.title p.notes p.due_date p.plant_id none now))
    | some cid =>
      match findProfile s cid with
      | none => none
      | some profile =>
        let title := if p.title = "" then profile.title else p.title
        some (addTask s (newTaskRow s title p.notes p.due_date p.plant_id (some cid) now))
  else none

/-- Embeds `TaskRepository._schedule_follow_up`: no-op without a linked profile or
when the profile row is gone; otherwise unconditionally insert a new pending
task due `next_due_after(profile, task.due_date)`. -/
def scheduleFollowUp (s : Store) (t : Task) (now : Int) : Store :=
  match t.care_profile_id with
  | none => s
  | some cid =>
    match findProfile s cid with
    | none => s
    | some profile =>
      addTask s (newTaskRow s profile.title profile.description
        (next_due_after profile t.due_date) profile.plant_id (some profile.id) now)

/-- The field loop of `TaskRepository.update`: each provided (non-null)
payload field overwrites the task's field, in model field order. -/
def applyTaskPayload (t : Task) (p : TaskUpdatePayload) : Task :=
  let t1 := match p.title with | some v => { t with title := v } | none => t
  let t2 := match p.notes with | some v => { t1 with notes := some v } | none => t1
  let t3 := match p.due_date with | some v => { t2 with due_date := v } | none => t2
  match p.status with | some v => { t3 with status := v } | none => t3

/-- Embeds `TaskRepository.update` (fetched by id first, as the API route does):
apply the payload, maintain `completed_at` (set on completion if absent,
cleared when not completed), stamp `updated_at`, and when the status changed
to `COMPLETED` run `_schedule_follow_up`. -/
def update (s : Store) (taskId : Nat) (p : TaskUpdatePayload) (now : Int) :
    Option Store :=
  match s.tasks.find? (fun u => u.id == taskId) with
  | none => none
  | some t =>
    let statusChanged : Bool := match p.status with
      | some v => v != t.status
      | none => false
    let t1 := applyTaskPayload t p
    let t2 :=
      if t1.status = TaskStatus.completed then
        if t1.completed_at = none then { t1 with completed_at := some now } else t1
      else { t1 with completed_at := none }
    let t3 := { t2 with updated_at := now }
    let s1 := { s with tasks := s.tasks.map (fun u => if u.id == taskId then t3 else u) }
    if statusChanged = true ∧ t3.status = TaskStatus.completed then
      some (scheduleFollowUp s1 t3 now)
    else
      some s1

/-- Embeds `TaskRepository.ensure_initial_task`: when a pending task for the profile
already exists the store is unchanged (the source returns the first such row
ordered by due date, which does not affect the state); otherwise insert one
with the given due date. -/
def ensure_initial_task (s : Store) (profile : CareProfile) (due_date : Int)
    (now : Int) : Store :=
  if (s.tasks.filter (fun t =>
      t.care_profile_id == some profile.id &&
        t.status == TaskStatus.pending)).isEmpty then
    addTask s (newTaskRow s profile.title profile.description due_date
      profile.plant_id (some profile.id) now)
  else s

/-- Embeds `TaskRepository.regenerate_pending_tasks`: delete every pending task of
the profile, then `ensure_initial_task` with
`first_due_on_or_after(profile, today)`. -/
def regenerate_pending_tasks (s : Store) (profile : CareProfile)
    (today now : Int) : Store :=
  let s1 := { s with tasks := s.tasks.filter (fun t =>
      !(t.care_profile_id == some profile.id && t.status == TaskStatus.pending)) }
  ensure_initial_task s1 profile (first_due_on_or_after profile today) now

end TaskRepository

/-- Embeds `CareProfileUpdate` payload; `none` stands for a field the PATCH body
does not provide.  (In the source a field provided as JSON null would be
assigned as `None`; the claims under verification only concern provided
non-null values, which this type represents.) -/
structure CareProfileUpdatePayload where
  title : Option String
  description : Option String
  cadence_type : Option CareCadenceType
  interval_days : Option Int
  weekly_days : Option (List Int)
  start_date : Option Int
deriving DecidableEq, Repr

/-- Embeds `CareProfileUpdate.model_validate`: normalize `weekly_days` when
provided. -/
def CareProfileUpdatePayload.model_validate (p : CareProfileUpdatePayload) :
    CareProfileUpdatePayload :=
  { p with weekly_days := p.weekly_days.map normalizeWeeklyDays }

/-- The field loop of `CareProfileRepository.update`. -/
def applyProfilePayload (q : CareProfile) (p : CareProfileUpdatePayload) :
    CareProfile :=
  let q1 := match p.title with | some v => { q with title := v } | none => q
  let q2 := match p.description with | some v => { q1 with description := some v } | none => q1
  let q3 := match p.cadence_type with | some v => { q2 with cadence_type := v } | none => q2
  let q4 := match p.interval_days with | some v => { q3 with interval_days := some v } | none => q3
  let q5 := match p.weekly_days with | some v => { q4 with weekly_days := v } | none => q4
  match p.start_date with | some v => { q5 with start_date := v } | none => q5

/-- Embeds `schedule_changed` in `CareProfileRepository.update`: true when any of
the four schedule keys is present in the payload. -/
def scheduleKeyPresent (p : CareProfileUpdatePayload) : Bool :=
  p.cadence_type.isSome || p.interval_days.isSome || p.weekly_days.isSome ||
    p.start_date.isSome

/-- Embeds `CareProfileRepository._validate_profile` as a pass/fail check (`false`
means the HTTP 422 is raised): interval cadence with falsy `interval_days`
or weekly cadence with empty `weekly_days` fails. -/
def validateProfile (q : CareProfile) : Bool :=
  !(q.cadence_type == CareCadenceType.interval &&
      (q.interval_days == none || q.interval_days == some 0)) &&
  !(q.cadence_type == CareCadenceType.weekly && q.weekly_days.isEmpty)

namespace CareProfileRepository

/-- Embeds `CareProfileRepository.create`: 404 on a missing plant, 422 on a payload
that fails validation; otherwise insert the profile row and materialize its
initial task due `first_due_on_or_after(profile, profile.start_date)`. -/
def create (s : Store) (plantId : Nat) (base : CareProfileBase) (now : Int) :
    Option Store :=
  if plantId ∈ s.plants then
    match base.model_validate with
    | Except.error _ => none
    | Except.ok b =>
      let profile : CareProfile :=
        { id := s.nextId
          plant_id := plantId
          title := b.title
          description := b.description
          cadence_type := b.cadence_type
          interval_days := b.interval_days
          weekly_days := b.weekly_days
          start_date := b.start_date
          created_at := now
          updated_at := now }
      let s1 := { s with profiles := s.profiles ++ [profile], nextId := s.nextId + 1 }
      some (TaskRepository.ensure_initial_task s1 profile
        (first_due_on_or_after profile profile.start_date) now)
  else none

/-- Embeds `CareProfileRepository.update` (fetched by id first, as the API route
does): apply the validated payload, re-validate (422 on failure becomes
`none`), stamp `updated_at`, and regenerate the pending tasks when a
schedule key was present. -/
def update (s : Store) (profileId : Nat) (p : CareProfileUpdatePayload)
    (today now : Int) : Option Store :=
  match findProfile s profileId with
  | none => none
  | some profile =>
    let profile1 := { applyProfilePayload profile p with updated_at := now }
    if validateProfile profile1 then
      let s1 := { s with profiles := s.profiles.map (fun q =>
          if q.id == profileId then profile1 else q) }
      if scheduleKeyPresent p then
        some (TaskRepository.regenerate_pending_tasks s1 profile1 today now)
      else
        some s1
    else none

end CareProfileRepository

/-! ### Watering events

From `PlantWateringEvent` in `src/backend/db/models.py` and
`record_plant_watering` in `src/backend/app.py` (lines 1210-1221). -/
structure PlantWateringEvent where
  id : Nat
  plant_id : Nat
  watered_at : Int
  recorded_at : Int
deriving DecidableEq, Repr

/-- The watering-insertion core of `record_plant_watering`: look for an
event of this plant with the same `watered_at`; only when none exists is a
new row added.  (`plant.waterings` is the sublist of events belonging to the
plant.) -/
def record_plant_watering (events : List PlantWateringEvent) (plantId : Nat)
    (watered_at : Int) (freshId : Nat) (now : Int) : List PlantWateringEvent :=
  let waterings := events.filter (fun e => e.plant_id == plantId)
  match waterings.find? (fun e => e.watered_at == watered_at) with
  | some _ => events
  | none =>
    events ++ [{ id := freshId
                 plant_id := plantId
                 watered_at := watered_at
                 recorded_at := now }]

/-! ### Concrete stores used by C1, C2, C3, C7 and C9 -/
/-- Payload editing the sample profile's schedule (every 5 days). -/
def c7Payload : CareProfileUpdatePayload :=
  { title := none, description := none, cadence_type := none,
    interval_days := some 5, weekly_days := none, start_date := none }

def c7PendingTask : Task :=
  { id := 20, plant_id := 1, care_profile_id := some 1, title := "Water",
    notes := none, due_date := dateOrdinal 2024 1 4,
    status := TaskStatus.pending, completed_at := none, created_at := 0,
    updated_at := 0 }

def c7DoneTask : Task :=
  { id := 21, plant_id := 1, care_profile_id := some 1, title := "Water",
    notes := none, due_date := dateOrdinal 2024 1 1,
    status := TaskStatus.completed, completed_at := some 5, created_at := 0,
    updated_at := 5 }

def c7Store : Store :=
  { plants := [1], profiles := [sampleIntervalProfile],
    tasks := [c7PendingTask, c7DoneTask], nextId := 30 }

def c7Profile1 : CareProfile :=
  { applyProfilePayload sampleIntervalProfile c7Payload with updated_at := 7 }

def c7NewTask : Task :=
  { id := c7Store.nextId
    plant_id := c7Profile1.plant_id
    care_profile_id := some c7Profile1.id
    title := c7Profile1.title
    notes := c7Profile1.description
    due_date := first_due_on_or_after c7Profile1 (dateOrdinal 2024 1 9)
    status := TaskStatus.pending
    completed_at := none
    updated_at := 7
    created_at := 7 }

def c1Base : CareProfileBase :=
  { title := "Water", description := none,
    cadence_type := CareCadenceType.interval, interval_days := some 3,
    weekly_days := [], start_date := dateOrdinal 2024 1 1 }

def c1Store0 : Store := { plants := [1], profiles := [], tasks := [], nextId := 10 }

def c1TaskPayload : TaskCreatePayload :=
  { title := "Extra water", notes := none, due_date := dateOrdinal 2024 1 5,
    plant_id := 1, care_profile_id := some 10 }

/-! ### Claim C2 -/
def scenCProfile : CareProfile :=
  { id := 2, plant_id := 1, title := "Water", description := none,
    cadence_type := CareCadenceType.interval, interval_days := some 3,
    weekly_days := [], start_date := dateOrdinal 2024 1 1, created_at := 0,
    updated_at := 0 }

def scenCTask : Task :=
  { id := 3, plant_id := 1, care_profile_id := some 2, title := "Water",
    notes := none, due_date := dateOrdinal 2024 1 4,
    status := TaskStatus.pending, completed_at := none, created_at := 0,
    updated_at := 0 }

def scenCStore : Store :=
  { plants := [1], profiles := [scenCProfile], tasks := [scenCTask],
    nextId := 4 }

def c2ExtraTask : Task :=
  { id := 4, plant_id := 1, care_profile_id := some 2, title := "Water",
    notes := none, due_date := dateOrdinal 2024 1 20,
    status := TaskStatus.pending, completed_at := none, created_at := 0,
    updated_at := 0 }

def c2Store : Store :=
  { plants := [1], profiles := [scenCProfile],
    tasks := [scenCTask, c2ExtraTask], nextId := 5 }

def c3Store0 : Store := { plants := [1], profiles := [], tasks := [], nextId := 6 }

def c3Payload : TaskCreatePayload :=
  { title := "Prune", notes := none, due_date := dateOrdinal 2024 1 4,
    plant_id := 1, care_profile_id := none }

def c9Event : PlantWateringEvent :=
  { id := 1, plant_id := 1, watered_at := dateOrdinal 2024 1 1,
    recorded_at := 0 }

/-! ### Helper lemmas -/
theorem foldl_min_mem (x : Int) (xs : List Int) : xs.foldl min x ∈ x :: xs := by
  induction xs generalizing x with
  | nil => simp
  | cons y ys ih =>
    rw [List.foldl_cons]
    have h := ih (min x y)
    rcases List.mem_cons.mp h with h1 | h1
    · rw [h1]
      rcases min_choice x y with h2 | h2 <;> rw [h2] <;> simp
    · simp [h1]

theorem normalizeWeeklyDays_sorted (l : List Int) :
    (normalizeWeeklyDays l).Sorted (· < ·) := by
  have hs : (normalizeWeeklyDays l).Sorted (· ≤ ·) :=
    List.sorted_insertionSort _ _
  have hperm := List.perm_insertionSort (· ≤ ·) ((l.map (fun day => day % 7)).dedup)
  have hn : (normalizeWeeklyDays l).Nodup :=
    hperm.symm.nodup_iff.mp (List.nodup_dedup _)
  rw [List.Sorted] at *
  rw [List.Nodup] at hn
  exact (hs.and hn).imp fun h => lt_of_le_of_ne h.1 h.2

theorem mem_normalizeWeeklyDays {l : List Int} {x : Int}
    (hx : x ∈ normalizeWeeklyDays l) : 0 ≤ x ∧ x < 7 := by
  unfold normalizeWeeklyDays at hx
  have h1 := (List.perm_insertionSort (· ≤ ·) ((l.map (fun day => day % 7)).dedup)).mem_iff.mp hx
  rw [List.mem_dedup] at h1
  obtain ⟨y, _, rfl⟩ := List.mem_map.mp h1
  exact ⟨Int.emod_nonneg y (by norm_num), Int.emod_lt_of_pos y (by norm_num)⟩

/-! ### Claim C4 -/
/-- C4: for every validated care profile `p` and reference date `r`,
`first_due_on_or_after p r ≥ r`; for interval profiles the result minus
`start_date` is divisible by `interval_days`, and the result equals
`start_date` when `r ≤ start_date`; for weekly profiles the result's weekday
is a member of `weekly_days`. -/
theorem c4_first_due_on_or_after_properties (p : CareProfile) (r : Int)
    (hv : p.Valid) :
    r ≤ first_due_on_or_after p r ∧
    (∀ d : Int, p.cadence_type = CareCadenceType.interval →
      p.interval_days = some d →
      (first_due_on_or_after p r - p.start_date) % d = 0 ∧
      (r ≤ p.start_date → first_due_on_or_after p r = p.start_date)) ∧
    (p.cadence_type = CareCadenceType.weekly →
      weekday (first_due_on_or_after p r) ∈ p.weekly_days) := by
  refine ⟨?_, ?_, ?_⟩
  · cases hcad : p.cadence_type with
    | interval =>
      obtain ⟨d, hd, hd1, _⟩ := hv.1 hcad
      have hdpos : (0 : Int) < d := by omega
      simp only [first_due_on_or_after, hcad, hd, Option.getD_some]
      split_ifs with h1 h2
      · exact h1
      · exact le_refl r
      · have hlt : (r - p.start_date) % d < d := Int.emod_lt_of_pos _ hdpos
        omega
    | weekly =>
      obtain ⟨hne, _⟩ := hv.2 hcad
      have hmapne : p.weekly_days.map (fun day => (day - weekday r) % 7) ≠ [] := by
        simpa using hne
      simp only [first_due_on_or_after, hcad]
      cases hm : p.weekly_days.map (fun day => (day - weekday r) % 7) with
      | nil => exact absurd hm hmapne
      | cons x xs =>
        have hmem : xs.foldl min x ∈ p.weekly_days.map (fun day => (day - weekday r) % 7) := by
          rw [hm]; exact foldl_min_mem x xs
        obtain ⟨day, _, hmin⟩ := List.mem_map.mp hmem
        have hnn : 0 ≤ xs.foldl min x := by
          rw [← hmin]
          exact Int.emod_nonneg _ (by norm_num)
        show r ≤ r + xs.foldl min x
        omega
  · intro d hcad hd
    have hd1 : (1 : Int) ≤ d := by
      obtain ⟨d', hd', hd'1, _⟩ := hv.1 hcad
      rw [hd] at hd'
      obtain rfl := Option.some_inj.mp hd'
      exact hd'1
    have hdpos : (0 : Int) < d := by omega
    simp only [first_due_on_or_after, hcad, hd, Option.getD_some]
    constructor
    · split_ifs with h1 h2
      · rw [sub_self, Int.zero_emod]
      · exact h2
      · have hkey : r + (d - (r - p.start_date) % d) - p.start_date
            = d * ((r - p.start_date) / d + 1) := by
          rw [Int.emod_def]; ring
        rw [hkey]
        exact Int.mul_emod_right d _
    · intro hr
      rw [if_pos hr]
  · intro hcad
    obtain ⟨hne, hfix⟩ := hv.2 hcad
    have hmapne : p.weekly_days.map (fun day => (day - weekday r) % 7) ≠ [] := by
      simpa using hne
    simp only [first_due_on_or_after, hcad]
    cases hm : p.weekly_days.map (fun day => (day - weekday r) % 7) with
    | nil => exact absurd hm hmapne
    | cons x xs =>
      have hmem : xs.foldl min x ∈ p.weekly_days.map (fun day => (day - weekday r) % 7) := by
        rw [hm]; exact foldl_min_mem x xs
      obtain ⟨day, hday, hmin⟩ := List.mem_map.mp hmem
      have hbounds : 0 ≤ day ∧ day < 7 := mem_normalizeWeeklyDays (hfix ▸ hday)
      have hgoal : weekday (r + xs.foldl min x) = day := by
        rw [← hmin]
        unfold weekday
        omega
      show weekday (r + xs.foldl min x) ∈ p.weekly_days
      rw [hgoal]
      exact hday

theorem sampleIntervalProfile_valid : sampleIntervalProfile.Valid :=
  ⟨fun _ => ⟨3, rfl, by norm_num, by norm_num⟩, fun h => by cases h⟩

/-- Witness for C4 at the interval profile above and reference 2024-01-02. -/
theorem c4_witness :
    sampleIntervalProfile.Valid ∧
    (dateOrdinal 2024 1 2 ≤
        first_due_on_or_after sampleIntervalProfile (dateOrdinal 2024 1 2) ∧
      (∀ d : Int, sampleIntervalProfile.cadence_type = CareCadenceType.interval →
        sampleIntervalProfile.interval_days = some d →
        (first_due_on_or_after sampleIntervalProfile (dateOrdinal 2024 1 2) -
            sampleIntervalProfile.start_date) % d = 0 ∧
        (dateOrdinal 2024 1 2 ≤ sampleIntervalProfile.start_date →
          first_due_on_or_after sampleIntervalProfile (dateOrdinal 2024 1 2) =
            sampleIntervalProfile.start_date)) ∧
      (sampleIntervalProfile.cadence_type = CareCadenceType.weekly →
        weekday (first_due_on_or_after sampleIntervalProfile (dateOrdinal 2024 1 2)) ∈
          sampleIntervalProfile.weekly_days)) :=
  ⟨sampleIntervalProfile_valid,
    c4_first_due_on_or_after_properties sampleIntervalProfile (dateOrdinal 2024 1 2)
      sampleIntervalProfile_valid⟩

/-- C10: every `CareProfileBase` accepted by validation has `weekly_days`
equal to a sorted list of distinct integers in `0..6`; submitted weekday
values are reduced modulo 7 and deduplicated before the weekly non-emptiness
check, so the input `[7, 14]` validates as `[0]`. -/
theorem c10_weekly_days_normalized :
    (∀ m q : CareProfileBase, m.model_validate = Except.ok q →
      q.weekly_days = normalizeWeeklyDays m.weekly_days ∧
      q.weekly_days.Sorted (· < ·) ∧
      ∀ x ∈ q.weekly_days, 0 ≤ x ∧ x < 7) ∧
    sampleWeeklyBase.model_validate =
      Except.ok { sampleWeeklyBase with weekly_days := [0] } := by
  constructor
  · intro m q h
    unfold CareProfileBase.model_validate at h
    by_cases h1 : ¬ intervalDaysInRange m.interval_days
    · rw [if_pos h1] at h; cases h
    · rw [if_neg h1] at h
      by_cases h2 : m.cadence_type = CareCadenceType.interval ∧
          (m.interval_days = none ∨ m.interval_days = some 0)
      · rw [if_pos h2] at h; cases h
      · rw [if_neg h2] at h
        by_cases h3 : m.cadence_type = CareCadenceType.weekly ∧
            normalizeWeeklyDays m.weekly_days = []
        · rw [if_pos h3] at h; cases h
        · rw [if_neg h3] at h
          have hq := (Except.ok.injEq _ _).mp h.symm
          subst hq
          refine ⟨rfl, normalizeWeeklyDays_sorted _, ?_⟩
          intro x hx
          exact mem_normalizeWeeklyDays hx
  · rfl

/-- Witness for C10: the validated `[7, 14]` payload has `weekly_days = [0]`,
sorted, distinct and in range. -/
theorem c10_witness :
    ([0] : List Int) = normalizeWeeklyDays sampleWeeklyBase.weekly_days ∧
    ([0] : List Int).Sorted (· < ·) ∧
    ∀ x ∈ ([0] : List Int), 0 ≤ x ∧ x < 7 := by
  have h := c10_weekly_days_normalized.1 sampleWeeklyBase
    { sampleWeeklyBase with weekly_days := [0] }
    c10_weekly_days_normalized.2
  exact h

/-! Predictor helper lemmas. -/
theorem list_range_map_sum (n : ℕ) (f : ℕ → ℚ) :
    ((List.range n).map f).sum = ∑ i in Finset.range n, f i := by
  induction n with
  | zero => simp
  | succ k ih =>
    rw [List.range_succ, List.map_append, List.sum_append, Finset.sum_range_succ, ih]
    simp

theorem variance_denominator_pos (n : ℕ) (hn : 2 ≤ n) (m : ℚ) :
    0 < ((List.range n).map (fun (i : ℕ) => ((i : ℚ) - m) ^ 2)).sum := by
  rw [list_range_map_sum]
  have hsub : ∑ i in ({0, 1} : Finset ℕ), ((i : ℚ) - m) ^ 2 ≤
      ∑ i in Finset.range n, ((i : ℚ) - m) ^ 2 := by
    refine Finset.sum_le_sum_of_subset_of_nonneg ?_ (fun i _ _ => sq_nonneg _)
    intro i hi
    simp only [Finset.mem_insert, Finset.mem_singleton] at hi
    simp only [Finset.mem_range]
    omega
  have hpair : ∑ i in ({0, 1} : Finset ℕ), ((i : ℚ) - m) ^ 2 =
      ((0 : ℚ) - m) ^ 2 + ((1 : ℚ) - m) ^ 2 := by
    rw [Finset.sum_pair (by norm_num)]
    norm_num
  have hpos : 0 < ((0 : ℚ) - m) ^ 2 + ((1 : ℚ) - m) ^ 2 := by
    nlinarith [sq_nonneg (2 * m - 1)]
  linarith [hsub, hpair]

theorem distinctSorted_sorted (l : List Int) :
    (distinctSorted l).Sorted (· ≤ ·) :=
  List.sorted_insertionSort _ _

theorem mem_distinctSorted {l : List Int} {x : Int} :
    x ∈ distinctSorted l ↔ x ∈ l := by
  unfold distinctSorted
  rw [(List.perm_insertionSort (· ≤ ·) l.dedup).mem_iff]
  exact List.mem_dedup

theorem distinctSorted_length (l : List Int) :
    (distinctSorted l).length = l.toFinset.card := by
  rw [List.card_toFinset]
  exact (List.perm_insertionSort (· ≤ ·) l.dedup).length_eq

theorem sorted_mem_le_getLastD (l : List Int) (hs : l.Sorted (· ≤ ·)) :
    ∀ d ∈ l, ∀ x : Int, d ≤ l.getLastD x := by
  induction l with
  | nil => intro d hd; cases hd
  | cons a t ih =>
    rw [List.sorted_cons] at hs
    intro d hd x
    cases t with
    | nil =>
      rcases List.mem_cons.mp hd with rfl | hmem
      · simp [List.getLastD]
      · cases hmem
    | cons b u =>
      rcases List.mem_cons.mp hd with rfl | hmem
      · have hrec : (d :: b :: u).getLastD x = (b :: u).getLastD x := by
          simp [List.getLastD_eq_getLast?, List.getLast?_cons_cons]
        rw [hrec]
        exact le_trans (hs.1 b (by simp)) (ih hs.2 b (by simp) x)
      · have hrec : (a :: b :: u).getLastD x = (b :: u).getLastD x := by
          simp [List.getLastD_eq_getLast?, List.getLast?_cons_cons]
        rw [hrec]
        exact ih hs.2 d hmem x

/-! ### Claim C6 -/
/-- C6: the predictor returns no prediction exactly when the history has
fewer than 2 distinct dates (duplicates collapse before counting); in
particular a single-point history yields `none`. -/
theorem c6_none_iff_insufficient_history :
    (∀ history : List Int,
        predict_next_watering_date history = none ↔ history.toFinset.card < 2) ∧
    predict_next_watering_date [dateOrdinal 2024 1 1] = none := by
  constructor
  · intro history
    have hlen := distinctSorted_length history
    by_cases h : (distinctSorted history).length < 2
    · simp only [predict_next_watering_date, if_pos h]
      simpa [← hlen] using h
    · simp only [predict_next_watering_date, if_neg h]
      constructor
      · intro hc
        split_ifs at hc
      · intro hc
        rw [← hlen] at hc
        exact absurd hc h
  · rfl

/-! ### Claim C5 -/
theorem dateOrdinal_jan2024 :
    dateOrdinal 2024 1 1 = 738886 ∧ dateOrdinal 2024 1 4 = 738889 ∧
    dateOrdinal 2024 1 7 = 738892 ∧ dateOrdinal 2024 1 10 = 738895 := by
  refine ⟨?_, ?_, ?_, ?_⟩ <;> decide

theorem scenarioD_prediction :
    predict_next_watering_date
        [dateOrdinal 2024 1 1, dateOrdinal 2024 1 4, dateOrdinal 2024 1 7] =
      some (dateOrdinal 2024 1 10) := by
  obtain ⟨h1, h4, h7, h10⟩ := dateOrdinal_jan2024
  rw [h1, h4, h7, h10]
  have hds : distinctSorted [738886, 738889, 738892] = [738886, 738889, 738892] := by
    decide
  have hrange : List.range 3 = [0, 1, 2] := rfl
  simp only [predict_next_watering_date, hds]
  norm_num [hrange, pyRound]

/-- C5: for a history with at least 2 distinct dates, the predictor returns
the least-squares extrapolation at index `n`, rounded, clamped to be at least
one day after the last known date; hence the result is strictly greater than
every date in the history; and scenario D (`2024-01-01, -04, -07`) predicts
`2024-01-10`. -/
theorem c5_regression_prediction (history : List Int)
    (h2 : 2 ≤ history.toFinset.card) :
    (∃ r : Int,
        predict_next_watering_date history = some r ∧
        r = max ((distinctSorted history).getLastD 0 + 1)
            (specRegressionPrediction history) ∧
        ∀ d ∈ history, d < r) ∧
    predict_next_watering_date
        [dateOrdinal 2024 1 1, dateOrdinal 2024 1 4, dateOrdinal 2024 1 7] =
      some (dateOrdinal 2024 1 10) := by
  constructor
  · have hlen : 2 ≤ (distinctSorted history).length := by
      rw [distinctSorted_length]
      exact h2
    have hnotlt : ¬ (distinctSorted history).length < 2 := by omega
    have hden : ¬ ((List.range (distinctSorted history).length).map
        (fun (i : ℕ) => ((i : ℚ) - specMeanIndex history) ^ 2)).sum = 0 := by
      have := variance_denominator_pos (distinctSorted history).length hlen
        (specMeanIndex history)
      exact ne_of_gt this
    refine ⟨max ((distinctSorted history).getLastD 0 + 1)
      (specRegressionPrediction history), ?_, rfl, ?_⟩
    · simp only [predict_next_watering_date, if_neg hnotlt]
      rw [if_neg (by exact hden)]
      rfl
    · intro d hd
      have hmem : d ∈ distinctSorted history := mem_distinctSorted.mpr hd
      have hle : d ≤ (distinctSorted history).getLastD 0 :=
        sorted_mem_le_getLastD (distinctSorted history) (distinctSorted_sorted history) d hmem 0
      have hmax : (distinctSorted history).getLastD 0 + 1 ≤
          max ((distinctSorted history).getLastD 0 + 1) (specRegressionPrediction history) :=
        le_max_left _ _
      omega
  · exact scenarioD_prediction

/-- Witness for C5 at the scenario D history. -/
theorem c5_witness :
    2 ≤ ([dateOrdinal 2024 1 1, dateOrdinal 2024 1 4, dateOrdinal 2024 1 7] :
        List Int).toFinset.card ∧
    (∃ r : Int,
        predict_next_watering_date
            [dateOrdinal 2024 1 1, dateOrdinal 2024 1 4, dateOrdinal 2024 1 7] =
          some r ∧
        r = max ((distinctSorted
              [dateOrdinal 2024 1 1, dateOrdinal 2024 1 4, dateOrdinal 2024 1 7]).getLastD 0 + 1)
            (specRegressionPrediction
              [dateOrdinal 2024 1 1, dateOrdinal 2024 1 4, dateOrdinal 2024 1 7]) ∧
        ∀ d ∈ ([dateOrdinal 2024 1 1, dateOrdinal 2024 1 4, dateOrdinal 2024 1 7] :
            List Int), d < r) :=
  ⟨by decide,
    (c5_regression_prediction
      [dateOrdinal 2024 1 1, dateOrdinal 2024 1 4, dateOrdinal 2024 1 7]
      (by decide)).1⟩

/-! ### Store helper lemmas -/
theorem filter_of_filter_not {α : Type} (l : List α) (p : α → Bool) :
    (l.filter (fun t => !(p t))).filter p = [] := by
  induction l with
  | nil => rfl
  | cons a l ih =>
    cases hpa : p a <;> simp [List.filter_cons, hpa, ih]

theorem mem_scheduleFollowUp_tasks (s : Store) (t u : Task) (now : Int)
    (hu : u ∈ s.tasks) : u ∈ (TaskRepository.scheduleFollowUp s t now).tasks := by
  cases hcp : t.care_profile_id with
  | none =>
    simp only [TaskRepository.scheduleFollowUp, hcp]
    exact hu
  | some cid =>
    cases hfp : findProfile s cid with
    | none =>
      simp only [TaskRepository.scheduleFollowUp, hcp, hfp]
      exact hu
    | some profile =>
      simp only [TaskRepository.scheduleFollowUp, hcp, hfp, addTask]
      exact List.mem_append_left _ hu

theorem regenerate_pending_tasks_eq (s : Store) (profile : CareProfile)
    (today now : Int) :
    TaskRepository.regenerate_pending_tasks s profile today now =
      addTask
        { s with tasks := s.tasks.filter (fun t =>
            !(t.care_profile_id == some profile.id &&
              t.status == TaskStatus.pending)) }
        (newTaskRow
          { s with tasks := s.tasks.filter (fun t =>
              !(t.care_profile_id == some profile.id &&
                t.status == TaskStatus.pending)) }
          profile.title profile.description (first_due_on_or_after profile today)
          profile.plant_id (some profile.id) now) := by
  unfold TaskRepository.regenerate_pending_tasks TaskRepository.ensure_initial_task
  simp only [filter_of_filter_not]
  rfl

/-! ### Claim C7 -/
/-- C7: a profile edit whose payload touches a schedule field deletes every
pending task of the profile, regenerates exactly one pending task due
`first_due_on_or_after(updated profile, today)`, and leaves every
non-pending (completed) task unchanged. -/
theorem c7_schedule_edit_regenerates (s : Store) (profileId : Nat)
    (profile profile1 : CareProfile) (p : CareProfileUpdatePayload)
    (newT : Task) (today now : Int)
    (hfind : findProfile s profileId = some profile)
    (hp1 : profile1 = { applyProfilePayload profile p with updated_at := now })
    (hnewT : newT =
      { id := s.nextId
        plant_id := profile1.plant_id
        care_profile_id := some profile1.id
        title := profile1.title
        notes := profile1.description
        due_date := first_due_on_or_after profile1 today
        status := TaskStatus.pending
        completed_at := none
        updated_at := now
        created_at := now })
    (hsched : scheduleKeyPresent p = true)
    (hvalid : validateProfile profile1 = true) :
    ∃ s' : Store,
      CareProfileRepository.update s profileId p today now = some s' ∧
      s'.tasks =
        s.tasks.filter (fun t =>
          !(t.care_profile_id == some profile1.id &&
            t.status == TaskStatus.pending)) ++ [newT] ∧
      pendingTasksFor s' profile1.id = [newT] ∧
      s'.tasks.filter (fun u => !(u.status == TaskStatus.pending)) =
        s.tasks.filter (fun u => !(u.status == TaskStatus.pending)) := by
  have hupd : CareProfileRepository.update s profileId p today now =
      some (TaskRepository.regenerate_pending_tasks
        { s with profiles := s.profiles.map (fun q =>
            if q.id == profileId then profile1 else q) }
        profile1 today now) := by
    simp only [CareProfileRepository.update, hfind]
    rw [← hp1]
    rw [if_pos hvalid, if_pos hsched]
  have htasks : (TaskRepository.regenerate_pending_tasks
      { s with profiles := s.profiles.map (fun q =>
          if q.id == profileId then profile1 else q) }
      profile1 today now).tasks =
      s.tasks.filter (fun t =>
        !(t.care_profile_id == some profile1.id &&
          t.status == TaskStatus.pending)) ++ [newT] := by
    rw [regenerate_pending_tasks_eq, hnewT]
    rfl
  have hnewp : (newT.care_profile_id == some profile1.id &&
      newT.status == TaskStatus.pending) = true := by
    simp [hnewT]
  refine ⟨_, hupd, htasks, ?_, ?_⟩
  · rw [pendingTasksFor, htasks, List.filter_append, filter_of_filter_not,
      List.filter_cons]
    simp [hnewp]
  · rw [htasks, List.filter_append]
    have hnewnp : (!(newT.status == TaskStatus.pending)) = false := by
      simp [hnewT]
    rw [List.filter_cons]
    simp only [hnewnp, Bool.false_eq_true, if_false, List.filter_nil,
      List.append_nil]
    rw [List.filter_filter]
    apply List.filter_congr
    intro x _
    cases hx : x.status <;> simp [hx]

/-- C8: `ensure_initial_task` (the synchronizer's materialization step) is
idempotent — running it twice leaves exactly the store produced by running
it once — and starting from a store with no pending task for the profile it
produces exactly one pending task with the requested due date. -/
theorem c8_ensure_initial_task_idempotent (s : Store) (profile : CareProfile)
    (due now now' : Int) :
    TaskRepository.ensure_initial_task
        (TaskRepository.ensure_initial_task s profile due now) profile due now' =
      TaskRepository.ensure_initial_task s profile due now ∧
    (pendingTasksFor s profile.id = [] →
      pendingTasksFor (TaskRepository.ensure_initial_task s profile due now)
          profile.id =
        [newTaskRow s profile.title profile.description due profile.plant_id
          (some profile.id) now]) := by
  by_cases hfil : (s.tasks.filter (fun t =>
      t.care_profile_id == some profile.id &&
        t.status == TaskStatus.pending)).isEmpty = true
  · have hfilnil : s.tasks.filter (fun t =>
        t.care_profile_id == some profile.id &&
          t.status == TaskStatus.pending) = [] :=
      List.isEmpty_iff.mp hfil
    have hone : TaskRepository.ensure_initial_task s profile due now =
        addTask s (newTaskRow s profile.title profile.description due
          profile.plant_id (some profile.id) now) := by
      simp only [TaskRepository.ensure_initial_task, if_pos hfil]
    have hnewp : ((newTaskRow s profile.title profile.description due
        profile.plant_id (some profile.id) now).care_profile_id ==
          some profile.id &&
        (newTaskRow s profile.title profile.description due profile.plant_id
          (some profile.id) now).status == TaskStatus.pending) = true := by
      simp [newTaskRow]
    have hfil2 : ((addTask s (newTaskRow s profile.title profile.description due
        profile.plant_id (some profile.id) now)).tasks.filter (fun t =>
          t.care_profile_id == some profile.id &&
            t.status == TaskStatus.pending)) =
        [newTaskRow s profile.title profile.description due profile.plant_id
          (some profile.id) now] := by
      show ((s.tasks ++ [newTaskRow s profile.title profile.description due
          profile.plant_id (some profile.id) now]).filter (fun t =>
            t.care_profile_id == some profile.id &&
              t.status == TaskStatus.pending)) = _
      rw [List.filter_append, hfilnil, List.nil_append, List.filter_cons]
      simp [hnewp]
    constructor
    · rw [hone]
      simp only [TaskRepository.ensure_initial_task, hfil2]
      simp
    · intro _
      rw [hone]
      show ((addTask s (newTaskRow s profile.title profile.description due
          profile.plant_id (some profile.id) now)).tasks.filter (fun t =>
            t.care_profile_id == some profile.id &&
              t.status == TaskStatus.pending)) = _
      exact hfil2
  · have hone : TaskRepository.ensure_initial_task s profile due now = s := by
      simp only [TaskRepository.ensure_initial_task, if_neg hfil]
    constructor
    · rw [hone]
      simp only [TaskRepository.ensure_initial_task, if_neg hfil]
    · intro hempty
      exfalso
      apply hfil
      simp only [pendingTasksFor] at hempty
      rw [hempty]
      rfl

/-- Witness for C8: running the materialization on a store with no tasks. -/
theorem c8_witness :
    (TaskRepository.ensure_initial_task
        (TaskRepository.ensure_initial_task
          { plants := [1], profiles := [sampleIntervalProfile], tasks := [],
            nextId := 5 }
          sampleIntervalProfile 0 0) sampleIntervalProfile 0 1 =
      TaskRepository.ensure_initial_task
        { plants := [1], profiles := [sampleIntervalProfile], tasks := [],
          nextId := 5 }
        sampleIntervalProfile 0 0) ∧
    pendingTasksFor
        (TaskRepository.ensure_initial_task
          { plants := [1], profiles := [sampleIntervalProfile], tasks := [],
            nextId := 5 }
          sampleIntervalProfile 0 0) sampleIntervalProfile.id =
      [newTaskRow
        { plants := [1], profiles := [sampleIntervalProfile], tasks := [],
          nextId := 5 }
        sampleIntervalProfile.title sampleIntervalProfile.description 0
        sampleIntervalProfile.plant_id (some sampleIntervalProfile.id) 0] := by
  have h := c8_ensure_initial_task_idempotent
    { plants := [1], profiles := [sampleIntervalProfile], tasks := [], nextId := 5 }
    sampleIntervalProfile 0 0 1
  exact ⟨h.1, h.2 rfl⟩

/-- Witness for C7: editing the sample profile's interval on 2024-01-09. -/
theorem c7_witness :
    ∃ s' : Store,
      CareProfileRepository.update c7Store 1 c7Payload (dateOrdinal 2024 1 9) 7 =
        some s' ∧
      s'.tasks =
        c7Store.tasks.filter (fun t =>
          !(t.care_profile_id == some c7Profile1.id &&
            t.status == TaskStatus.pending)) ++ [c7NewTask] ∧
      pendingTasksFor s' c7Profile1.id = [c7NewTask] ∧
      s'.tasks.filter (fun u => !(u.status == TaskStatus.pending)) =
        c7Store.tasks.filter (fun u => !(u.status == TaskStatus.pending)) :=
  c7_schedule_edit_regenerates c7Store 1 sampleIntervalProfile c7Profile1
    c7Payload c7NewTask (dateOrdinal 2024 1 9) 7 rfl rfl rfl rfl rfl

/-! ### Claim C1 -/
/-- C1 (amended): pending-task regeneration leaves exactly one pending task
for the profile, and initial-task materialization preserves "at most one
pending task per profile"; (the unchecked insertions of `TaskRepository.create`
and `_schedule_follow_up` are the subject of the counterexample). -/
theorem c1_regenerate_and_ensure_preserve_invariant (s : Store)
    (profile : CareProfile) (due today now now' : Int) :
    (pendingTasksFor
        (TaskRepository.regenerate_pending_tasks s profile today now)
        profile.id).length = 1 ∧
    ((pendingTasksFor s profile.id).length ≤ 1 →
      (pendingTasksFor (TaskRepository.ensure_initial_task s profile due now')
          profile.id).length ≤ 1) := by
  constructor
  · rw [regenerate_pending_tasks_eq]
    have h1 : pendingTasksFor
        { s with tasks := s.tasks.filter (fun t =>
            !(t.care_profile_id == some profile.id &&
              t.status == TaskStatus.pending)) } profile.id = [] :=
      filter_of_filter_not _ _
    rw [pendingTasksFor]
    show ((({ s with tasks := s.tasks.filter (fun t =>
        !(t.care_profile_id == some profile.id &&
          t.status == TaskStatus.pending)) } : Store).tasks ++
        [newTaskRow { s with tasks := s.tasks.filter (fun t =>
            !(t.care_profile_id == some profile.id &&
              t.status == TaskStatus.pending)) }
          profile.title profile.description
          (first_due_on_or_after profile today) profile.plant_id
          (some profile.id) now]).filter (fun t =>
            t.care_profile_id == some profile.id &&
              t.status == TaskStatus.pending)).length = 1
    rw [List.filter_append, filter_of_filter_not, List.filter_cons]
    simp [newTaskRow]
  · intro hle
    by_cases hfil : (s.tasks.filter (fun t =>
        t.care_profile_id == some profile.id &&
          t.status == TaskStatus.pending)).isEmpty = true
    · have h0 : pendingTasksFor s profile.id = [] := List.isEmpty_iff.mp hfil
      have hone : TaskRepository.ensure_initial_task s profile due now' =
          addTask s (newTaskRow s profile.title profile.description due
            profile.plant_id (some profile.id) now') := by
        simp only [TaskRepository.ensure_initial_task, if_pos hfil]
      rw [hone, pendingTasksFor]
      show ((s.tasks ++ [newTaskRow s profile.title profile.description due
          profile.plant_id (some profile.id) now']).filter (fun t =>
            t.care_profile_id == some profile.id &&
              t.status == TaskStatus.pending)).length ≤ 1
      rw [List.filter_append]
      rw [show s.tasks.filter (fun t =>
          t.care_profile_id == some profile.id &&
            t.status == TaskStatus.pending) = [] from h0]
      rw [List.filter_cons]
      simp [newTaskRow]
    · have hone : TaskRepository.ensure_initial_task s profile due now' = s := by
        simp only [TaskRepository.ensure_initial_task, if_neg hfil]
      rw [hone]
      exact hle

/-- Witness for C1's amended statement, on the concrete store that already
holds one pending task. -/
theorem c1_witness :
    (pendingTasksFor
        (TaskRepository.regenerate_pending_tasks c7Store sampleIntervalProfile 3 4)
        sampleIntervalProfile.id).length = 1 ∧
    (pendingTasksFor
        (TaskRepository.ensure_initial_task c7Store sampleIntervalProfile 5 6)
        sampleIntervalProfile.id).length ≤ 1 :=
  ⟨(c1_regenerate_and_ensure_preserve_invariant c7Store sampleIntervalProfile
      5 3 4 6).1,
    (c1_regenerate_and_ensure_preserve_invariant c7Store sampleIntervalProfile
      5 3 4 6).2 (by decide)⟩

/-- Counterexample to C1 as stated: creating a care profile (which
materializes one pending task) and then creating a second task for the same
(plant, profile) pair through `TaskRepository.create` leaves the store with
two pending tasks for the pair — no scheduling operation checks the
invariant on manual task creation. -/
theorem c1_counterexample :
    ((CareProfileRepository.create c1Store0 1 c1Base 0).bind
        (fun s1 => TaskRepository.create s1 c1TaskPayload 0)).map
      (fun s2 => (pendingTasksFor s2 10).length) = some 2 := by
  rfl

/-- C2 (amended): completing a pending task linked to a care profile always
inserts a brand-new pending task for that (plant, profile) pair, due
`next_due_after(profile, task.due_date)`; no check for an existing pending
task is made; a task with no linked profile gets no follow-up; and scenario C
(completing a task due 2024-01-04 under an interval-3 profile) yields a
pending follow-up due 2024-01-07. -/
theorem c2_completion_inserts_follow_up (s : Store) (t : Task) (now : Int)
    (hfind : s.tasks.find? (fun u => u.id == t.id) = some t)
    (hpend : t.status = TaskStatus.pending)
    (hca : t.completed_at = none) :
    (∀ (c : Nat) (profile : CareProfile),
      t.care_profile_id = some c →
      findProfile s c = some profile →
      TaskRepository.update s t.id ⟨none, none, none, some TaskStatus.completed⟩
          now =
        some { s with
          tasks := s.tasks.map (fun u => if u.id == t.id then
              { t with
                status := TaskStatus.completed
                completed_at := some now
                updated_at := now } else u) ++
            [{ id := s.nextId
               plant_id := profile.plant_id
               care_profile_id := some profile.id
               title := profile.title
               notes := profile.description
               due_date := next_due_after profile t.due_date
               status := TaskStatus.pending
               completed_at := none
               created_at := now
               updated_at := now }]
          nextId := s.nextId + 1 }) ∧
    (t.care_profile_id = none →
      TaskRepository.update s t.id ⟨none, none, none, some TaskStatus.completed⟩
          now =
        some { s with
          tasks := s.tasks.map (fun u => if u.id == t.id then
            { t with
              status := TaskStatus.completed
              completed_at := some now
              updated_at := now } else u) }) ∧
    (TaskRepository.update scenCStore 3 ⟨none, none, none,
        some TaskStatus.completed⟩ 0).map
      (fun s' => (pendingTasksFor s' 2).map Task.due_date) =
      some [dateOrdinal 2024 1 7] := by
  obtain ⟨tid, tplant, tcp, ttitle, tnotes, tdue, tstatus, tca, tcr, tup⟩ := t
  dsimp only at hfind hpend hca ⊢
  subst hpend
  subst hca
  refine ⟨?_, ?_, ?_⟩
  · intro c profile hcp hfp
    subst hcp
    have hfp' : s.profiles.find? (fun q => q.id == c) = some profile := hfp
    have h1 : TaskRepository.update s tid
        ⟨none, none, none, some TaskStatus.completed⟩ now =
        some (TaskRepository.scheduleFollowUp
          { s with tasks := s.tasks.map (fun u => if u.id == tid then
              { id := tid, plant_id := tplant, care_profile_id := some c,
                title := ttitle, notes := tnotes, due_date := tdue,
                status := TaskStatus.completed, completed_at := some now,
                created_at := tcr, updated_at := now } else u) }
          { id := tid, plant_id := tplant, care_profile_id := some c,
            title := ttitle, notes := tnotes, due_date := tdue,
            status := TaskStatus.completed, completed_at := some now,
            created_at := tcr, updated_at := now } now) := by
      unfold TaskRepository.update
      rw [hfind]
      rfl
    have h2 : TaskRepository.scheduleFollowUp
        { s with tasks := s.tasks.map (fun u => if u.id == tid then
            { id := tid, plant_id := tplant, care_profile_id := some c,
              title := ttitle, notes := tnotes, due_date := tdue,
              status := TaskStatus.completed, completed_at := some now,
              created_at := tcr, updated_at := now } else u) }
        { id := tid, plant_id := tplant, care_profile_id := some c,
          title := ttitle, notes := tnotes, due_date := tdue,
          status := TaskStatus.completed, completed_at := some now,
          created_at := tcr, updated_at := now } now =
        { s with
          tasks := s.tasks.map (fun u => if u.id == tid then
              { id := tid, plant_id := tplant, care_profile_id := some c,
                title := ttitle, notes := tnotes, due_date := tdue,
                status := TaskStatus.completed, completed_at := some now,
                created_at := tcr, updated_at := now } else u) ++
            [{ id := s.nextId
               plant_id := profile.plant_id
               care_profile_id := some profile.id
               title := profile.title
               notes := profile.description
               due_date := next_due_after profile tdue
               status := TaskStatus.pending
               completed_at := none
               created_at := now
               updated_at := now }]
          nextId := s.nextId + 1 } := by
      simp only [TaskRepository.scheduleFollowUp, findProfile, hfp']
      rfl
    rw [h1, h2]
  · intro hcp
    subst hcp
    have h1 : TaskRepository.update s tid
        ⟨none, none, none, some TaskStatus.completed⟩ now =
        some (TaskRepository.scheduleFollowUp
          { s with tasks := s.tasks.map (fun u => if u.id == tid then
              { id := tid, plant_id := tplant, care_profile_id := none,
                title := ttitle, notes := tnotes, due_date := tdue,
                status := TaskStatus.completed, completed_at := some now,
                created_at := tcr, updated_at := now } else u) }
          { id := tid, plant_id := tplant, care_profile_id := none,
            title := ttitle, notes := tnotes, due_date := tdue,
            status := TaskStatus.completed, completed_at := some now,
            created_at := tcr, updated_at := now } now) := by
      unfold TaskRepository.update
      rw [hfind]
      rfl
    rw [h1]
    rfl
  · rfl

/-- Counterexample to C2 as stated: completing a pending task while another
pending task for the same (plant, profile) pair exists does not update the
existing task's due date — it leaves it untouched (still due 2024-01-20) and
inserts a duplicate (due 2024-01-07), so two pending tasks remain. -/
theorem c2_counterexample :
    (TaskRepository.update c2Store 3 ⟨none, none, none,
        some TaskStatus.completed⟩ 0).map
      (fun s' => (pendingTasksFor s' 2).map Task.due_date) =
      some [dateOrdinal 2024 1 20, dateOrdinal 2024 1 7] := by
  rfl

/-- Witness for C2's amended statement at the scenario C store. -/
theorem c2_witness :
    TaskRepository.update scenCStore 3 ⟨none, none, none,
        some TaskStatus.completed⟩ 0 =
      some { scenCStore with
        tasks := scenCStore.tasks.map (fun u => if u.id == scenCTask.id then
            { scenCTask with
              status := TaskStatus.completed
              completed_at := some 0
              updated_at := 0 } else u) ++
          [{ id := scenCStore.nextId
             plant_id := scenCProfile.plant_id
             care_profile_id := some scenCProfile.id
             title := scenCProfile.title
             notes := scenCProfile.description
             due_date := next_due_after scenCProfile scenCTask.due_date
             status := TaskStatus.pending
             completed_at := none
             created_at := 0
             updated_at := 0 }]
        nextId := scenCStore.nextId + 1 } :=
  (c2_completion_inserts_follow_up scenCStore scenCTask 0 rfl rfl rfl).1 2
    scenCProfile rfl rfl

/-! ### Claim C3 -/
/-- C3 (amended): the task model has only the states `pending` and
`completed` (no `skipped`); a `pending → completed` update records
`completed_at` with the update time; but `completed` is not terminal — a
status update with `status=pending` moves a completed task back to pending,
clearing `completed_at`. -/
theorem c3_status_machine (s : Store) (t : Task) (now : Int)
    (hfind : s.tasks.find? (fun u => u.id == t.id) = some t) :
    (∀ st : TaskStatus, st = TaskStatus.pending ∨ st = TaskStatus.completed) ∧
    (t.status = TaskStatus.pending → t.completed_at = none →
      ∃ s', TaskRepository.update s t.id
          ⟨none, none, none, some TaskStatus.completed⟩ now = some s' ∧
        { t with
          status := TaskStatus.completed
          completed_at := some now
          updated_at := now } ∈ s'.tasks) ∧
    (t.status = TaskStatus.completed →
      ∃ s', TaskRepository.update s t.id
          ⟨none, none, none, some TaskStatus.pending⟩ now = some s' ∧
        { t with
          status := TaskStatus.pending
          completed_at := none
          updated_at := now } ∈ s'.tasks) := by
  have hmem : t ∈ s.tasks := List.mem_of_find?_eq_some hfind
  refine ⟨fun st => by cases st <;> simp, ?_, ?_⟩
  · intro hpend hca
    obtain ⟨tid, tplant, tcp, ttitle, tnotes, tdue, tstatus, tca, tcr, tup⟩ := t
    dsimp only at hfind hpend hca hmem ⊢
    subst hpend
    subst hca
    have hupd : TaskRepository.update s tid
        ⟨none, none, none, some TaskStatus.completed⟩ now =
        some (TaskRepository.scheduleFollowUp
          { s with tasks := s.tasks.map (fun u => if u.id == tid then
              { id := tid, plant_id := tplant, care_profile_id := tcp,
                title := ttitle, notes := tnotes, due_date := tdue,
                status := TaskStatus.completed, completed_at := some now,
                created_at := tcr, updated_at := now } else u) }
          { id := tid, plant_id := tplant, care_profile_id := tcp,
            title := ttitle, notes := tnotes, due_date := tdue,
            status := TaskStatus.completed, completed_at := some now,
            created_at := tcr, updated_at := now } now) := by
      unfold TaskRepository.update
      rw [hfind]
      rfl
    refine ⟨_, hupd, ?_⟩
    apply mem_scheduleFollowUp_tasks
    have := List.mem_map_of_mem
      (fun u => if u.id == tid then
        ({ id := tid, plant_id := tplant, care_profile_id := tcp,
           title := ttitle, notes := tnotes, due_date := tdue,
           status := TaskStatus.completed, completed_at := some now,
           created_at := tcr, updated_at := now } : Task) else u) hmem
    simpa using this
  · intro hco
    obtain ⟨tid, tplant, tcp, ttitle, tnotes, tdue, tstatus, tca, tcr, tup⟩ := t
    dsimp only at hfind hco hmem ⊢
    subst hco
    have hupd : TaskRepository.update s tid
        ⟨none, none, none, some TaskStatus.pending⟩ now =
        some { s with tasks := s.tasks.map (fun u => if u.id == tid then
            { id := tid, plant_id := tplant, care_profile_id := tcp,
              title := ttitle, notes := tnotes, due_date := tdue,
              status := TaskStatus.pending, completed_at := none,
              created_at := tcr, updated_at := now } else u) } := by
      unfold TaskRepository.update
      rw [hfind]
      rfl
    refine ⟨_, hupd, ?_⟩
    have := List.mem_map_of_mem
      (fun u => if u.id == tid then
        ({ id := tid, plant_id := tplant, care_profile_id := tcp,
           title := ttitle, notes := tnotes, due_date := tdue,
           status := TaskStatus.pending, completed_at := none,
           created_at := tcr, updated_at := now } : Task) else u) hmem
    simpa using this

/-- Counterexample to C3 as stated: create a task, complete it, then update
it back to `pending` — the third operation changes the state of a completed
task, so `completed` is not terminal. -/
theorem c3_counterexample :
    (((TaskRepository.create c3Store0 c3Payload 0).bind (fun s1 =>
        TaskRepository.update s1 6 ⟨none, none, none,
          some TaskStatus.completed⟩ 1)).bind (fun s2 =>
        TaskRepository.update s2 6 ⟨none, none, none,
          some TaskStatus.pending⟩ 2)).map
      (fun s3 => s3.tasks.map Task.status) = some [TaskStatus.pending] := by
  rfl

/-- Witness for C3's amended statement at the scenario C store. -/
theorem c3_witness :
    (∀ st : TaskStatus, st = TaskStatus.pending ∨ st = TaskStatus.completed) ∧
    (∃ s', TaskRepository.update scenCStore 3
        ⟨none, none, none, some TaskStatus.completed⟩ 1 = some s' ∧
      { scenCTask with
        status := TaskStatus.completed
        completed_at := some 1
        updated_at := 1 } ∈ s'.tasks) :=
  ⟨(c3_status_machine scenCStore scenCTask 1 rfl).1,
    (c3_status_machine scenCStore scenCTask 1 rfl).2.1 rfl rfl⟩

/-! ### Claim C9 -/
/-- C9: re-recording a watering for a (plant, date) pair already present
leaves the event list unchanged, and the record operation preserves
uniqueness of (plant_id, watered_at) pairs. -/
theorem c9_watering_idempotent (events : List PlantWateringEvent)
    (plantId : Nat) (w : Int) (freshId : Nat) (now : Int) :
    ((∃ e ∈ events, e.plant_id = plantId ∧ e.watered_at = w) →
      record_plant_watering events plantId w freshId now = events) ∧
    (List.Pairwise (fun a b =>
        ¬(a.plant_id = b.plant_id ∧ a.watered_at = b.watered_at)) events →
      List.Pairwise (fun a b =>
        ¬(a.plant_id = b.plant_id ∧ a.watered_at = b.watered_at))
        (record_plant_watering events plantId w freshId now)) := by
  cases hfind : (events.filter (fun e => e.plant_id == plantId)).find?
      (fun e => e.watered_at == w) with
  | some e =>
    constructor
    · intro _
      simp only [record_plant_watering, hfind]
    · intro hp
      simpa only [record_plant_watering, hfind] using hp
  | none =>
    have hnone : ∀ a ∈ events, ¬(a.plant_id = plantId ∧ a.watered_at = w) := by
      intro a ha hcontra
      have hafilter : a ∈ events.filter (fun e => e.plant_id == plantId) := by
        rw [List.mem_filter]
        exact ⟨ha, by simp [hcontra.1]⟩
      have := List.find?_eq_none.mp hfind a hafilter
      simp [hcontra.2] at this
    constructor
    · intro hex
      obtain ⟨e, he, he1, he2⟩ := hex
      exact absurd ⟨he1, he2⟩ (hnone e he)
    · intro hp
      simp only [record_plant_watering, hfind]
      rw [List.pairwise_append]
      refine ⟨hp, by simp, ?_⟩
      intro a ha b hb
      rw [List.mem_singleton] at hb
      subst hb
      intro hcontra
      exact hnone a ha ⟨hcontra.1, hcontra.2⟩

/-- Witness for C9: same-day re-recording on a one-event history. -/
theorem c9_witness :
    record_plant_watering [c9Event] 1 (dateOrdinal 2024 1 1) 2 5 = [c9Event] ∧
    List.Pairwise (fun a b =>
        ¬(a.plant_id = b.plant_id ∧ a.watered_at = b.watered_at))
      (record_plant_watering [c9Event] 1 (dateOrdinal 2024 1 1) 2 5) :=
  ⟨(c9_watering_idempotent [c9Event] 1 (dateOrdinal 2024 1 1) 2 5).1
      ⟨c9Event, by simp, rfl, rfl⟩,
    (c9_watering_idempotent [c9Event] 1 (dateOrdinal 2024 1 1) 2 5).2
      (by simp)⟩

end Plantit

